import Mathlib

/-!
Verification of the signature-verification core (package `crypto` of the
trillian repository, file `src/unnamed/part_000`) against its
natural-language specification.

The Go source is shallowly embedded below.  Calls into external libraries
(`crypto/sha256` via `hasher.New()`, `encoding/asn1`, `crypto/ecdsa`,
`crypto/rsa`, `encoding/pem`, `crypto/x509`, `encoding/json`,
`objecthash`) are abstracted as parameters gathered in primitive-bundles
(`CryptoPrims`, `ObjectPrims`, `PEMPrims`): the theorems quantify over
every possible behaviour of those primitives.  Each embedded function
additionally returns the list of primitive invocations it performed, so
that claims of the form "no cryptographic primitive is invoked" become
statements about that trace.
-/

namespace TrillianCrypto

/-- Byte sequences (`[]byte` in Go). -/
abbrev Bytes := List Nat

/-- The protobuf enum `sigpb.DigitallySigned_HashAlgorithm` is an open
`int32` enum with named values `NONE = 0` and `SHA256 = 4`; we model it as
an integer so that unknown wire values are representable. -/
abbrev HashAlgorithm := Int

/-- Named value `sigpb.DigitallySigned_NONE`. -/
def DigitallySigned_NONE : HashAlgorithm := 0

/-- Named value `sigpb.DigitallySigned_SHA256`. -/
def DigitallySigned_SHA256 : HashAlgorithm := 4

/-- The protobuf enum `sigpb.DigitallySigned_SignatureAlgorithm`, again an
open `int32` enum: `ANONYMOUS = 0`, `RSA = 1`, `ECDSA = 3`. -/
abbrev SignatureAlgorithm := Int

/-- Named value `sigpb.DigitallySigned_ANONYMOUS`. -/
def DigitallySigned_ANONYMOUS : SignatureAlgorithm := 0

/-- Named value `sigpb.DigitallySigned_RSA`. -/
def DigitallySigned_RSA : SignatureAlgorithm := 1

/-- Named value `sigpb.DigitallySigned_ECDSA`. -/
def DigitallySigned_ECDSA : SignatureAlgorithm := 3

/-- Go `crypto.Hash` is an integer identifier for a digest function;
`crypto.SHA256` is the constant 5 and the zero value is 0. -/
abbrev CryptoHash := Nat

/-- Go constant `crypto.SHA256`. -/
def cryptoSHA256 : CryptoHash := 5

/-- The wire message `sigpb.DigitallySigned` (the Go struct the verifier
receives as `sig *sigpb.DigitallySigned`). -/
structure DigitallySigned where
  hashAlgorithm : HashAlgorithm
  signatureAlgorithm : SignatureAlgorithm
  signature : Bytes
  deriving DecidableEq, Repr

/-- The numeric contents of a Go `*ecdsa.PublicKey` (curve identifier and
point); the actual curve arithmetic lives behind `CryptoPrims`. -/
structure ECDSAPublicKey where
  curve : Nat
  x : Int
  y : Int
  deriving DecidableEq, Repr

/-- The numeric contents of a Go `*rsa.PublicKey`. -/
structure RSAPublicKey where
  n : Nat
  e : Nat
  deriving DecidableEq, Repr

/-- Go `crypto.PublicKey` is `interface{}`; `Verify` type-switches on the
dynamic type.  `other tyName` covers every dynamic type that is neither
`*ecdsa.PublicKey` nor `*rsa.PublicKey`, with `tyName` the string `%T`
would print (a nil interface prints as a nil type). -/
inductive PublicKey where
  | ecdsa (k : ECDSAPublicKey)
  | rsa (k : RSAPublicKey)
  | other (tyName : String)
  deriving DecidableEq, Repr

/-- The Go error values the source can return, compared as Go compares
them (by identity for `errors.New` package variables, by message for
`fmt.Errorf`).  Note that `errVerify` is a single package-level variable:
every return of it yields the same error value. -/
inductive GoError where
  /-- the package variable `errVerify = errors.New("signature verification failed")` -/
  | errVerify
  /-- fmt.Errorf("unsupported hash algorithm %v", hasher); carries the
  `hasher` value that was interpolated (the zero value 0, since the map
  lookup failed) -/
  | unsupportedHashAlgorithm (hasher : CryptoHash)
  /-- fmt.Errorf("signature algorithm does not match public key") -/
  | signatureAlgorithmMismatch
  /-- fmt.Errorf("unknown private key type: %T", key) -/
  | unknownKeyType (tyName : String)
  /-- an error produced by json.Marshal inside VerifyObject -/
  | jsonMarshalError (msg : String)
  /-- the error rsa.VerifyPKCS1v15 / rsa.VerifyPSS return on rejection -/
  | rsaErrVerification
  /-- errors.New("could not decode PEM for public key") -/
  | pemDecodeFailed
  /-- errors.New("extra data found after PEM key decoded") -/
  | extraDataAfterPEM
  /-- fmt.Errorf("unable to parse public key: %v", err) -/
  | parsePublicKeyError (msg : String)
  deriving DecidableEq, Repr

/-- Instrumentation: the external primitive invocations a call performs,
in order.  `verifyEntered` marks entry into `Verify` itself so that
"`Verify` was never invoked" is expressible. -/
inductive PrimEvent where
  | verifyEntered
  | hashDigest
  | sigDecode
  | ecdsaVerify
  | rsaVerifyPKCS1
  | rsaVerifyPSS
  | jsonMarshal
  | objectHash
  | pemDecode
  | parsePKIX
  deriving DecidableEq, Repr

/-- Go `*rsa.PSSOptions`. -/
structure PSSOptions where
  saltLength : Int
  hash : CryptoHash
  deriving DecidableEq, Repr

/-- Go `crypto.SignerOpts` as `verifyRSA` discriminates it: either a
`*rsa.PSSOptions`, or anything else (in this package always the
`crypto.Hash` that `Verify` passes, which itself implements
`crypto.SignerOpts`). -/
inductive SignerOpts where
  | hash (h : CryptoHash)
  | pssOptions (o : PSSOptions)
  deriving DecidableEq, Repr

/-- The behaviour of the external cryptographic libraries, abstracted:
* `hashSum h data` — `hasher.New(); h.Write(data); h.Sum(nil)`;
* `asn1Unmarshal sig` — `asn1.Unmarshal(sig, &ecdsaSig)`: `none` models a
  decode error, `some ((R, S), rest)` a successful decode with remainder;
* `ecdsaVerify` — `ecdsa.Verify(pub, hashed, R, S)`;
* `rsaVerifyPKCS1v15` / `rsaVerifyPSS` — the rsa library calls, returning
  `some err` on rejection and `none` on success. -/
structure CryptoPrims where
  hashSum : CryptoHash → Bytes → Bytes
  asn1Unmarshal : Bytes → Option ((Int × Int) × Bytes)
  ecdsaVerify : ECDSAPublicKey → Bytes → Int → Int → Bool
  rsaVerifyPKCS1v15 : RSAPublicKey → CryptoHash → Bytes → Bytes → Option GoError
  rsaVerifyPSS : RSAPublicKey → CryptoHash → Bytes → Bytes → PSSOptions → Option GoError

/-- Source line 37: the package-level table
`cryptoHashLookup = map[sigpb.DigitallySigned_HashAlgorithm]crypto.Hash{
  sigpb.DigitallySigned_SHA256: crypto.SHA256 }`. -/
def cryptoHashLookup (a : HashAlgorithm) : Option CryptoHash :=
  if a = DigitallySigned_SHA256 then some cryptoSHA256 else none

/-- Source lines 117-134, `func verifyECDSA`: unmarshal the signature as a
DER pair (R, S); a decode error, a non-empty remainder, or an `ecdsa.Verify`
rejection each return the shared package variable `errVerify`. -/
def verifyECDSA (P : CryptoPrims) (pub : ECDSAPublicKey) (hashed sig : Bytes) :
    Except GoError Unit × List PrimEvent :=
  match P.asn1Unmarshal sig with
  | none => (.error .errVerify, [.sigDecode])
  | some ((r, s), rest) =>
    if rest.length ≠ 0 then
      (.error .errVerify, [.sigDecode])
    else if P.ecdsaVerify pub hashed r s then
      (.ok (), [.sigDecode, .ecdsaVerify])
    else
      (.error .errVerify, [.sigDecode, .ecdsaVerify])

/-- Source lines 110-115, `func verifyRSA`: if the options value is a
`*rsa.PSSOptions` verify with PSS, otherwise with PKCS#1 v1.5. -/
def verifyRSA (P : CryptoPrims) (pub : RSAPublicKey) (hashed sig : Bytes)
    (hasher : CryptoHash) (opts : SignerOpts) :
    Except GoError Unit × List PrimEvent :=
  match opts with
  | .pssOptions pssOpts =>
    match P.rsaVerifyPSS pub hasher hashed sig pssOpts with
    | some e => (.error e, [.rsaVerifyPSS])
    | none => (.ok (), [.rsaVerifyPSS])
  | .hash _ =>
    match P.rsaVerifyPKCS1v15 pub hasher hashed sig with
    | some e => (.error e, [.rsaVerifyPKCS1])
    | none => (.ok (), [.rsaVerifyPKCS1])

/-- Source lines 81-108, `func Verify`: resolve the hash algorithm (fail
with the `unsupported hash algorithm` error interpolating the zero-valued
`hasher`), recompute the digest, then type-switch on the key, checking the
declared signature algorithm before dispatching to `verifyECDSA` /
`verifyRSA`; `verifyRSA` receives the resolved `hasher` both as hash and
as options value. -/
def Verify (P : CryptoPrims) (pub : PublicKey) (data : Bytes)
    (sig : DigitallySigned) : Except GoError Unit × List PrimEvent :=
  let sigAlgo := sig.signatureAlgorithm
  match cryptoHashLookup sig.hashAlgorithm with
  | none => (.error (.unsupportedHashAlgorithm 0), [.verifyEntered])
  | some hasher =>
    let digest := P.hashSum hasher data
    match pub with
    | .ecdsa key =>
      if sigAlgo ≠ DigitallySigned_ECDSA then
        (.error .signatureAlgorithmMismatch, [.verifyEntered, .hashDigest])
      else
        let r := verifyECDSA P key digest sig.signature
        (r.1, [.verifyEntered, .hashDigest] ++ r.2)
    | .rsa key =>
      if sigAlgo ≠ DigitallySigned_RSA then
        (.error .signatureAlgorithmMismatch, [.verifyEntered, .hashDigest])
      else
        let r := verifyRSA P key digest sig.signature hasher (.hash hasher)
        (r.1, [.verifyEntered, .hashDigest] ++ r.2)
    | .other tyName =>
      (.error (.unknownKeyType tyName), [.verifyEntered, .hashDigest])

/-- The behaviour of the serialization collaborators of `VerifyObject`:
`jsonMarshal` is `json.Marshal` (may fail), `commonJSONHash` is
`objecthash.CommonJSONHash` applied to the marshalled text, yielding the
32-byte digest that `hash[:]` passes on.  Generic in the object type `α`
and the marshalled-text type `β`. -/
structure ObjectPrims (α β : Type) where
  jsonMarshal : α → Except GoError β
  commonJSONHash : β → Bytes

/-- Source lines 70-78, `func VerifyObject`: marshal the object, return
the marshalling error unchanged if it fails, otherwise hash the text with
`objecthash.CommonJSONHash` and call `Verify` on the digest. -/
def VerifyObject {α β : Type} (P : CryptoPrims) (M : ObjectPrims α β)
    (pub : PublicKey) (obj : α) (sig : DigitallySigned) :
    Except GoError Unit × List PrimEvent :=
  match M.jsonMarshal obj with
  | .error e => (.error e, [.jsonMarshal])
  | .ok j =>
    let hash := M.commonJSONHash j
    let r := Verify P pub hash sig
    (r.1, [.jsonMarshal, .objectHash] ++ r.2)

/-- The behaviour of the key-parsing collaborators: `pemDecode` is
`pem.Decode` (`none` models a nil block; otherwise the block bytes and the
remainder), `parsePKIX` is `x509.ParsePKIXPublicKey`. -/
structure PEMPrims where
  pemDecode : Bytes → Option (Bytes × Bytes)
  parsePKIX : Bytes → Except String PublicKey

/-- Source lines 52-67, `func PublicKeyFromPEM`: decode one PEM block
(fail if none), fail if bytes remain after the block, then parse the block
bytes as a PKIX public key (wrapping a parse error), otherwise return the
key. -/
def PublicKeyFromPEM (E : PEMPrims) (pemEncodedKey : Bytes) :
    Except GoError PublicKey × List PrimEvent :=
  match E.pemDecode pemEncodedKey with
  | none => (.error .pemDecodeFailed, [.pemDecode])
  | some (blockBytes, rest) =>
    if rest.length > 0 then
      (.error .extraDataAfterPEM, [.pemDecode])
    else
      match E.parsePKIX blockBytes with
      | .error msg => (.error (.parsePublicKeyError msg), [.pemDecode, .parsePKIX])
      | .ok k => (.ok k, [.pemDecode, .parsePKIX])

/-! ### The Canonical Hasher, modelled from the specification

The canonical object hasher used by `VerifyObject` is the external
`objecthash` library composed with `json.Marshal`; its code is not part of
this repository, so it is modelled from the words of the specification
(section 4.1): an arbitrary tree of string-keyed maps, sequences and
scalars is reduced deterministically and order-independently, with the
collision resistance of the underlying SHA-256-class primitive idealised
as injectivity of an abstract digest function. -/

/-- Modelled from the spec: the structured values the Canonical Hasher
accepts — "an arbitrary tree of maps (string-keyed, unordered), ordered
sequences, strings, numbers, and booleans/null". -/
inductive Json where
  | null
  | bool (b : Bool)
  | num (n : Int)
  | str (s : String)
  | arr (xs : List Json)
  | obj (kvs : List (String × Json))

/-- Key order used to canonicalise map entries. -/
def entryLE (a b : String × Json) : Prop := a.1 ≤ b.1

instance : DecidableRel entryLE := fun a b => inferInstanceAs (Decidable (a.1 ≤ b.1))

instance : IsTotal (String × Json) entryLE := ⟨fun a b => le_total a.1 b.1⟩

instance : IsTrans (String × Json) entryLE := ⟨fun _ _ _ h1 h2 => le_trans h1 h2⟩

/-- Modelled from the spec: the order-independent canonical form — every
map is recursively rewritten with its entries sorted by key, so that two
maps with the same key/value pairs in different insertion order acquire
the same canonical form. -/
def canonicalize : Json → Json
  | .null => .null
  | .bool b => .bool b
  | .num n => .num n
  | .str s => .str s
  | .arr xs => .arr (xs.attach.map (fun x => canonicalize x.1))
  | .obj kvs =>
    .obj (List.insertionSort entryLE (kvs.attach.map (fun kv => (kv.1.1, canonicalize kv.1.2))))
decreasing_by
  · have h := List.sizeOf_lt_of_mem x.2
    simp only [Json.arr.sizeOf_spec]
    omega
  · have h2 : sizeOf kv.1 < sizeOf kvs := List.sizeOf_lt_of_mem kv.2
    have h1 : sizeOf kv.1.2 ≤ sizeOf kv.1 := by
      obtain ⟨⟨k, v⟩, hm⟩ := kv
      simp only [Prod.mk.sizeOf_spec]
      omega
    simp only [Json.obj.sizeOf_spec]
    omega

/-- Modelled from the spec: the Canonical Hasher `hash(object) -> Digest`,
as the composition of canonicalisation with an abstract digest primitive
`h` (the SHA-256-class hash, whose collision resistance the theorems
idealise as injectivity of `h`). -/
def specCanonicalHash {D : Type} (h : Json → D) (v : Json) : D :=
  h (canonicalize v)

/-- Modelled from the spec: the serialization collaborators of
`VerifyObject` instantiated with the Canonical Hasher model — the
marshalling step always succeeds and is carried by the `Json` value
itself, and the hashing step is `specCanonicalHash`. -/
def specObjectPrims (h : Json → Bytes) : ObjectPrims Json Json where
  jsonMarshal := fun v => .ok v
  commonJSONHash := fun v => specCanonicalHash h v

/-- Strict key order, used to show canonical forms are unique. -/
def entryLT (a b : String × Json) : Prop := a.1 < b.1

instance : IsAntisymm (String × Json) entryLT :=
  ⟨fun a _b h1 h2 => absurd (lt_trans h1 h2) (lt_irrefl a.1)⟩

/-- Sorting map entries by key is a canonical form: two entry lists that
are permutations of each other with duplicate-free keys sort to the same
list. -/
theorem insertionSort_eq_of_perm {l1 l2 : List (String × Json)}
    (hp : l1.Perm l2) (hnd : (l1.map Prod.fst).Nodup) :
    List.insertionSort entryLE l1 = List.insertionSort entryLE l2 := by
  have hperm : (List.insertionSort entryLE l1).Perm (List.insertionSort entryLE l2) :=
    (List.perm_insertionSort entryLE l1).trans
      (hp.trans (List.perm_insertionSort entryLE l2).symm)
  have hs1 : (List.insertionSort entryLE l1).Sorted entryLE :=
    List.sorted_insertionSort entryLE l1
  have hs2 : (List.insertionSort entryLE l2).Sorted entryLE :=
    List.sorted_insertionSort entryLE l2
  have hnd1 : ((List.insertionSort entryLE l1).map Prod.fst).Nodup :=
    (((List.perm_insertionSort entryLE l1).map Prod.fst).nodup_iff).mpr hnd
  have hnd2 : ((List.insertionSort entryLE l2).map Prod.fst).Nodup :=
    ((hperm.map Prod.fst).nodup_iff).mp hnd1
  have hne1 : (List.insertionSort entryLE l1).Pairwise (fun a b => a.1 ≠ b.1) :=
    List.pairwise_map.mp hnd1
  have hne2 : (List.insertionSort entryLE l2).Pairwise (fun a b => a.1 ≠ b.1) :=
    List.pairwise_map.mp hnd2
  have hlt1 : (List.insertionSort entryLE l1).Sorted entryLT :=
    (hs1.and hne1).imp fun h => lt_of_le_of_ne h.1 h.2
  have hlt2 : (List.insertionSort entryLE l2).Sorted entryLT :=
    (hs2.and hne2).imp fun h => lt_of_le_of_ne h.1 h.2
  exact List.eq_of_perm_of_sorted hperm hlt1 hlt2

/-- Unfolding lemma for `canonicalize` on maps, with the `attach`
bookkeeping of the termination proof removed. -/
theorem canonicalize_obj (kvs : List (String × Json)) :
    canonicalize (.obj kvs)
      = .obj (List.insertionSort entryLE (kvs.map (fun kv => (kv.1, canonicalize kv.2)))) := by
  rw [canonicalize]
  rw [List.attach_map_val kvs (fun kv => (kv.1, canonicalize kv.2))]

/-- Order independence of the canonical form: permuting the entries of a
map (with duplicate-free keys) does not change its canonical form. -/
theorem canonicalize_obj_perm {l1 l2 : List (String × Json)}
    (hp : l1.Perm l2) (hnd : (l1.map Prod.fst).Nodup) :
    canonicalize (.obj l1) = canonicalize (.obj l2) := by
  rw [canonicalize_obj, canonicalize_obj]
  have hpm : (l1.map (fun kv => (kv.1, canonicalize kv.2))).Perm
      (l2.map (fun kv => (kv.1, canonicalize kv.2))) := hp.map _
  have hndm : ((l1.map (fun kv => (kv.1, canonicalize kv.2))).map Prod.fst).Nodup := by
    rw [List.map_map]
    exact hnd
  rw [insertionSort_eq_of_perm hpm hndm]

/-! ### Sample values used by witnesses and counterexamples -/

/-- A sample ECDSA public key. -/
def sampleECDSAKey : ECDSAPublicKey := ⟨1, 2, 3⟩

/-- A sample RSA public key. -/
def sampleRSAKey : RSAPublicKey := ⟨15, 3⟩

/-- A primitive bundle on which every library call succeeds: the DER
decode yields (1, 2) with empty remainder and both verifications accept. -/
def primsAccept : CryptoPrims where
  hashSum := fun _ data => 0 :: data
  asn1Unmarshal := fun _ => some ((1, 2), [])
  ecdsaVerify := fun _ _ _ _ => true
  rsaVerifyPKCS1v15 := fun _ _ _ _ => none
  rsaVerifyPSS := fun _ _ _ _ _ => none

/-- A primitive bundle whose DER decode always fails. -/
def primsDecodeFail : CryptoPrims where
  hashSum := fun _ data => 0 :: data
  asn1Unmarshal := fun _ => none
  ecdsaVerify := fun _ _ _ _ => true
  rsaVerifyPKCS1v15 := fun _ _ _ _ => none
  rsaVerifyPSS := fun _ _ _ _ _ => none

/-- A primitive bundle whose DER decode succeeds with empty remainder but
whose ECDSA check rejects. -/
def primsCryptoReject : CryptoPrims where
  hashSum := fun _ data => 0 :: data
  asn1Unmarshal := fun _ => some ((1, 2), [])
  ecdsaVerify := fun _ _ _ _ => false
  rsaVerifyPKCS1v15 := fun _ _ _ _ => some .rsaErrVerification
  rsaVerifyPSS := fun _ _ _ _ _ => some .rsaErrVerification

/-- A primitive bundle whose DER decode succeeds but leaves one trailing
byte, while the ECDSA check would accept the decoded pair. -/
def primsTrailing : CryptoPrims where
  hashSum := fun _ data => 0 :: data
  asn1Unmarshal := fun _ => some ((1, 2), [9])
  ecdsaVerify := fun _ _ _ _ => true
  rsaVerifyPKCS1v15 := fun _ _ _ _ => none
  rsaVerifyPSS := fun _ _ _ _ _ => none

/-- A sample signature message tagged SHA256 / ECDSA. -/
def sigSHA256ECDSA : DigitallySigned :=
  ⟨DigitallySigned_SHA256, DigitallySigned_ECDSA, [1, 2, 3]⟩

/-- A sample signature message tagged SHA256 / RSA. -/
def sigSHA256RSA : DigitallySigned :=
  ⟨DigitallySigned_SHA256, DigitallySigned_RSA, [1, 2, 3]⟩

/-! ### Claim theorems -/

/-- C4: for every public key of any variant, every data, and every tagged
signature whose hash algorithm is not SHA-256, `Verify` fails with the
unsupported-hash-algorithm error and stops before computing any digest
(the trace records no `hashDigest` event, so no fallback digest function
is used), before the key/algorithm binding check (the error is not the
mismatch error even for a mismatched tag) and before the unknown-key-type
check (the error is not the unknown-key error even for an `other` key). -/
theorem verify_unsupported_hash (P : CryptoPrims) (pub : PublicKey) (data : Bytes)
    (sig : DigitallySigned) (h : sig.hashAlgorithm ≠ DigitallySigned_SHA256) :
    Verify P pub data sig = (.error (.unsupportedHashAlgorithm 0), [.verifyEntered]) := by
  simp [Verify, cryptoHashLookup, h]

/-- Witness for `verify_unsupported_hash`: a NONE hash algorithm on an
unknown key type fails with the unsupported-hash error, not the
unknown-key error. -/
theorem verify_unsupported_hash_witness :
    Verify primsAccept (.other "int") [1]
        ⟨DigitallySigned_NONE, DigitallySigned_ECDSA, [1, 2, 3]⟩
      = (.error (.unsupportedHashAlgorithm 0), [.verifyEntered]) :=
  verify_unsupported_hash primsAccept (.other "int") [1]
    ⟨DigitallySigned_NONE, DigitallySigned_ECDSA, [1, 2, 3]⟩ (by decide)

/-- C10: for every public key that is neither ECDSA nor RSA (the `other`
variant, covering a nil key as well), every data, and every tagged
signature with the supported hash algorithm, `Verify` fails with the
unknown-key-type error; the trace shows the digest recomputation and
nothing else — no signature decoding and no cryptographic verification. -/
theorem verify_unknown_key_type (P : CryptoPrims) (tyName : String) (data : Bytes)
    (sig : DigitallySigned) (h : sig.hashAlgorithm = DigitallySigned_SHA256) :
    Verify P (.other tyName) data sig
      = (.error (.unknownKeyType tyName), [.verifyEntered, .hashDigest]) := by
  simp [Verify, cryptoHashLookup, h]

/-- Witness for `verify_unknown_key_type`: a nil key with a SHA256/ECDSA
tag fails with the unknown-key-type error. -/
theorem verify_unknown_key_type_witness :
    Verify primsAccept (.other "<nil>") [1] sigSHA256ECDSA
      = (.error (.unknownKeyType "<nil>"), [.verifyEntered, .hashDigest]) :=
  verify_unknown_key_type primsAccept "<nil>" [1] sigSHA256ECDSA (by decide)

/-- C1, counterexample to the claim as stated: the claim quantifies over
every tagged signature with `signatureAlgorithm = ECDSA`, but for an RSA
key and a signature whose hash algorithm is unsupported (NONE), `Verify`
fails with the unsupported-hash error, not the algorithm-mismatch error:
the hash-resolution gate fires before the binding check. -/
theorem verify_mismatch_counterexample :
    (Verify primsAccept (.rsa sampleRSAKey) [1]
        ⟨DigitallySigned_NONE, DigitallySigned_ECDSA, [1, 2, 3]⟩).1
      = .error (.unsupportedHashAlgorithm 0)
    ∧ (Except.error (.unsupportedHashAlgorithm 0) : Except GoError Unit)
      ≠ .error .signatureAlgorithmMismatch := by
  constructor
  · rfl
  · simp

/-- C1 (amended with a supported hash algorithm): for every RSA public key
and tagged signature with supported hash algorithm and
`signatureAlgorithm = ECDSA`, and symmetrically for every ECDSA key with
`signatureAlgorithm = RSA`, `Verify` fails with the algorithm-mismatch
error, and the trace records only entry and digest recomputation — no
signature decoding, no ECDSA verification and no RSA verification. -/
theorem verify_algorithm_mismatch (P : CryptoPrims) (data : Bytes)
    (sig : DigitallySigned) (hh : sig.hashAlgorithm = DigitallySigned_SHA256) :
    (∀ k : RSAPublicKey, sig.signatureAlgorithm = DigitallySigned_ECDSA →
      Verify P (.rsa k) data sig
        = (.error .signatureAlgorithmMismatch, [.verifyEntered, .hashDigest]))
    ∧ (∀ k : ECDSAPublicKey, sig.signatureAlgorithm = DigitallySigned_RSA →
      Verify P (.ecdsa k) data sig
        = (.error .signatureAlgorithmMismatch, [.verifyEntered, .hashDigest])) := by
  constructor
  · intro k ha
    simp [Verify, cryptoHashLookup, hh, ha, DigitallySigned_ECDSA, DigitallySigned_RSA]
  · intro k ha
    simp [Verify, cryptoHashLookup, hh, ha, DigitallySigned_ECDSA, DigitallySigned_RSA]

/-- Witness for `verify_algorithm_mismatch`: an RSA key with an ECDSA tag
and an ECDSA key with an RSA tag both fail with the mismatch error. -/
theorem verify_algorithm_mismatch_witness :
    Verify primsAccept (.rsa sampleRSAKey) [1] sigSHA256ECDSA
        = (.error .signatureAlgorithmMismatch, [.verifyEntered, .hashDigest])
    ∧ Verify primsAccept (.ecdsa sampleECDSAKey) [1] sigSHA256RSA
        = (.error .signatureAlgorithmMismatch, [.verifyEntered, .hashDigest]) :=
  ⟨(verify_algorithm_mismatch primsAccept [1] sigSHA256ECDSA rfl).1 sampleRSAKey rfl,
   (verify_algorithm_mismatch primsAccept [1] sigSHA256RSA rfl).2 sampleECDSAKey rfl⟩

/-- C2, counterexample to the claim as stated: for an ECDSA key, the error
returned when the signature bytes fail to decode is the very same value
(`errVerify`, a single package-level variable) as the error returned when
decoding succeeds but the cryptographic check rejects — the two failure
modes are not distinguishable by the returned error. -/
theorem verify_ecdsa_error_collapse_counterexample :
    (Verify primsDecodeFail (.ecdsa sampleECDSAKey) [1] sigSHA256ECDSA).1
      = .error .errVerify
    ∧ (Verify primsCryptoReject (.ecdsa sampleECDSAKey) [1] sigSHA256ECDSA).1
      = .error .errVerify
    ∧ (Verify primsDecodeFail (.ecdsa sampleECDSAKey) [1] sigSHA256ECDSA).1
      = (Verify primsCryptoReject (.ecdsa sampleECDSAKey) [1] sigSHA256ECDSA).1 := by
  refine ⟨rfl, rfl, rfl⟩

/-- C2 (amended): every failure of `Verify` on the ECDSA branch is
returned to the caller as an error value — none are swallowed — but the
decode failure, the trailing-data failure and the cryptographic rejection
all return one and the same sentinel error `errVerify`, so they are not
distinguishable from each other. -/
theorem verify_ecdsa_single_error (P : CryptoPrims) (k : ECDSAPublicKey)
    (data : Bytes) (sig : DigitallySigned)
    (hh : sig.hashAlgorithm = DigitallySigned_SHA256)
    (ha : sig.signatureAlgorithm = DigitallySigned_ECDSA) :
    (Verify P (.ecdsa k) data sig).1 = .ok ()
    ∨ (Verify P (.ecdsa k) data sig).1 = .error .errVerify := by
  simp only [Verify, cryptoHashLookup, hh, ha, if_pos, verifyECDSA]
  norm_num [DigitallySigned_ECDSA]
  rcases P.asn1Unmarshal sig.signature with _ | ⟨⟨r, s⟩, rest⟩
  · simp
  · rcases rest with _ | ⟨b, rest⟩
    · by_cases hv : P.ecdsaVerify k (P.hashSum cryptoSHA256 data) r s <;> simp [hv]
    · simp

/-- Witness for `verify_ecdsa_single_error`: a rejecting cryptographic
check yields the sentinel error. -/
theorem verify_ecdsa_single_error_witness :
    (Verify primsCryptoReject (.ecdsa sampleECDSAKey) [1] sigSHA256ECDSA).1 = .ok ()
    ∨ (Verify primsCryptoReject (.ecdsa sampleECDSAKey) [1] sigSHA256ECDSA).1
      = .error .errVerify :=
  verify_ecdsa_single_error primsCryptoReject sampleECDSAKey [1] sigSHA256ECDSA rfl rfl

/-- C3: for every ECDSA public key, data, and signature bytes whose DER
decode succeeds but leaves at least one trailing byte, `Verify` fails with
the malformed-signature error (the sentinel `errVerify`), and the trace
ends at the decode — `ecdsa.Verify` is never invoked, so the failure
happens even when the decoded prefix would pass ECDSA verification (the
theorem quantifies over every primitive bundle, including those whose
ECDSA check accepts everything). -/
theorem verify_ecdsa_trailing_data (P : CryptoPrims) (k : ECDSAPublicKey)
    (data : Bytes) (sig : DigitallySigned)
    (hh : sig.hashAlgorithm = DigitallySigned_SHA256)
    (ha : sig.signatureAlgorithm = DigitallySigned_ECDSA)
    (r s : Int) (rest : Bytes)
    (hdec : P.asn1Unmarshal sig.signature = some ((r, s), rest))
    (hrest : rest ≠ []) :
    Verify P (.ecdsa k) data sig
      = (.error .errVerify, [.verifyEntered, .hashDigest, .sigDecode]) := by
  have hlen : rest.length ≠ 0 := fun h => hrest (List.length_eq_zero.mp h)
  simp [Verify, cryptoHashLookup, hh, ha, verifyECDSA, hdec, hlen,
    DigitallySigned_ECDSA]

/-- Witness for `verify_ecdsa_trailing_data`: with one trailing byte after
the DER pair and an ECDSA primitive that would accept the decoded pair,
`Verify` still fails with the sentinel error and never calls the ECDSA
check. -/
theorem verify_ecdsa_trailing_data_witness :
    Verify primsTrailing (.ecdsa sampleECDSAKey) [1] sigSHA256ECDSA
      = (.error .errVerify, [.verifyEntered, .hashDigest, .sigDecode]) :=
  verify_ecdsa_trailing_data primsTrailing sampleECDSAKey [1] sigSHA256ECDSA
    rfl rfl 1 2 [9] rfl (by decide)

/-- C5: whenever the marshalling step accepts the object, `VerifyObject`
returns exactly the result of `Verify` applied to the canonical digest of
the object (the `objecthash` of the marshalled text) — `VerifyObject` is
the composition of the Canonical Hasher with `Verify`. -/
theorem verifyObject_composes {α β : Type} (P : CryptoPrims) (M : ObjectPrims α β)
    (pub : PublicKey) (obj : α) (sig : DigitallySigned) (j : β)
    (h : M.jsonMarshal obj = .ok j) :
    (VerifyObject P M pub obj sig).1 = (Verify P pub (M.commonJSONHash j) sig).1 := by
  simp [VerifyObject, h]

/-- Witness for `verifyObject_composes` at a concrete object and
serializer. -/
theorem verifyObject_composes_witness :
    (VerifyObject primsAccept ⟨fun n => .ok [n], fun b => 7 :: b⟩
        (.ecdsa sampleECDSAKey) (42 : Nat) sigSHA256ECDSA).1
      = (Verify primsAccept (.ecdsa sampleECDSAKey) [7, 42] sigSHA256ECDSA).1 :=
  verifyObject_composes primsAccept ⟨fun n => .ok [n], fun b => 7 :: b⟩
    (.ecdsa sampleECDSAKey) 42 sigSHA256ECDSA [42] rfl

/-- The trace of `verifyECDSA` never contains an RSA-PSS verification. -/
theorem verifyECDSA_no_pss (P : CryptoPrims) (k : ECDSAPublicKey)
    (hashed sigBytes : Bytes) :
    PrimEvent.rsaVerifyPSS ∉ (verifyECDSA P k hashed sigBytes).2 := by
  unfold verifyECDSA
  rcases P.asn1Unmarshal sigBytes with _ | ⟨⟨r, s⟩, rest⟩
  · simp
  · by_cases hlen : rest.length ≠ 0
    · simp [hlen]
    · by_cases hv : P.ecdsaVerify k hashed r s <;> simp [hlen, hv]

/-- When `verifyRSA` receives a non-PSS options value its trace is exactly
one PKCS#1 v1.5 verification, and its result is that verification's. -/
theorem verifyRSA_hash_opts (P : CryptoPrims) (k : RSAPublicKey)
    (hashed sigBytes : Bytes) (hasher h2 : CryptoHash) :
    verifyRSA P k hashed sigBytes hasher (.hash h2)
      = (match P.rsaVerifyPKCS1v15 k hasher hashed sigBytes with
         | some e => .error e
         | none => .ok (), [.rsaVerifyPKCS1]) := by
  unfold verifyRSA
  rcases P.rsaVerifyPKCS1v15 k hasher hashed sigBytes with _ | e <;> simp

/-- C7: RSA verification reached from `Verify` is always performed with
deterministic PKCS#1 v1.5 padding: the options value `Verify` passes to
`verifyRSA` is the resolved `crypto.Hash`, never a PSS options object, so
an RSA-PSS verification never appears in the trace of any `Verify` call,
and on the RSA branch the trace is exactly one PKCS#1 v1.5 verification
whose outcome decides the call. -/
theorem verify_rsa_pkcs1_only (P : CryptoPrims) (k : RSAPublicKey) (data : Bytes)
    (sig : DigitallySigned)
    (hh : sig.hashAlgorithm = DigitallySigned_SHA256)
    (ha : sig.signatureAlgorithm = DigitallySigned_RSA) :
    (∀ (pub : PublicKey) (d : Bytes) (s2 : DigitallySigned),
        PrimEvent.rsaVerifyPSS ∉ (Verify P pub d s2).2)
    ∧ (Verify P (.rsa k) data sig).2 = [.verifyEntered, .hashDigest, .rsaVerifyPKCS1]
    ∧ (Verify P (.rsa k) data sig).1
        = (match P.rsaVerifyPKCS1v15 k cryptoSHA256 (P.hashSum cryptoSHA256 data)
              sig.signature with
           | some e => .error e
           | none => .ok ()) := by
  refine ⟨?_, ?_, ?_⟩
  · intro pub d s2
    unfold Verify
    rcases hl : cryptoHashLookup s2.hashAlgorithm with _ | hasher
    · simp
    · cases pub with
      | ecdsa key =>
        by_cases hsa : s2.signatureAlgorithm ≠ DigitallySigned_ECDSA
        · simp [hsa]
        · push_neg at hsa
          have hps := verifyECDSA_no_pss P key (P.hashSum hasher d) s2.signature
          simp [hsa, hps]
      | rsa key =>
        by_cases hsa : s2.signatureAlgorithm ≠ DigitallySigned_RSA
        · simp [hsa]
        · push_neg at hsa
          simp [hsa, verifyRSA_hash_opts]
      | other tyName => simp
  · simp [Verify, cryptoHashLookup, hh, ha, DigitallySigned_RSA, verifyRSA_hash_opts]
  · simp [Verify, cryptoHashLookup, hh, ha, DigitallySigned_RSA, verifyRSA_hash_opts]

/-- Witness for `verify_rsa_pkcs1_only` at a concrete accepting bundle. -/
theorem verify_rsa_pkcs1_only_witness :
    PrimEvent.rsaVerifyPSS
      ∉ (Verify primsAccept (.rsa sampleRSAKey) [1] sigSHA256RSA).2
    ∧ (Verify primsAccept (.rsa sampleRSAKey) [1] sigSHA256RSA).2
      = [.verifyEntered, .hashDigest, .rsaVerifyPKCS1] :=
  ⟨(verify_rsa_pkcs1_only primsAccept sampleRSAKey [1] sigSHA256RSA rfl rfl).1
      (.rsa sampleRSAKey) [1] sigSHA256RSA,
   (verify_rsa_pkcs1_only primsAccept sampleRSAKey [1] sigSHA256RSA rfl rfl).2.1⟩

/-- C8: when the marshalling step rejects the object, `VerifyObject`
returns that error unchanged, and the trace records only the marshalling
attempt — `Verify` is never entered and no hashing, decoding or
cryptographic primitive is invoked (and the call terminates, being a
total function). -/
theorem verifyObject_marshal_error {α β : Type} (P : CryptoPrims)
    (M : ObjectPrims α β) (pub : PublicKey) (obj : α) (sig : DigitallySigned)
    (e : GoError) (h : M.jsonMarshal obj = .error e) :
    VerifyObject P M pub obj sig = (.error e, [.jsonMarshal]) := by
  simp [VerifyObject, h]

/-- Witness for `verifyObject_marshal_error`: an unhashable object (the
marshaller rejects everything) propagates the marshalling error with an
empty primitive trace beyond the marshalling attempt. -/
theorem verifyObject_marshal_error_witness :
    VerifyObject primsAccept
        ⟨fun _ => .error (.jsonMarshalError "unsupported type"), fun b => b⟩
        (.ecdsa sampleECDSAKey) (42 : Nat) sigSHA256ECDSA
      = (.error (.jsonMarshalError "unsupported type"), [.jsonMarshal]) :=
  verifyObject_marshal_error primsAccept
    ⟨fun _ => .error (.jsonMarshalError "unsupported type"), fun b => b⟩
    (.ecdsa sampleECDSAKey) 42 sigSHA256ECDSA (.jsonMarshalError "unsupported type") rfl

/-- C9: for every input, `PublicKeyFromPEM` decodes exactly one PEM block
(the trace contains exactly one decode event in every outcome); when no
block decodes it fails with the malformed-encoding error, when bytes
remain after the first block it fails with the trailing-data error, when
the block bytes do not parse as a PKIX public-key structure it fails with
the wrapped parse error, and otherwise it returns the parsed key. -/
theorem publicKeyFromPEM_spec (E : PEMPrims) (t : Bytes) :
    (PublicKeyFromPEM E t).2.count .pemDecode = 1
    ∧ (E.pemDecode t = none →
        PublicKeyFromPEM E t = (.error .pemDecodeFailed, [.pemDecode]))
    ∧ (∀ b rest, E.pemDecode t = some (b, rest) → rest ≠ [] →
        PublicKeyFromPEM E t = (.error .extraDataAfterPEM, [.pemDecode]))
    ∧ (∀ b, E.pemDecode t = some (b, []) →
        (∀ msg, E.parsePKIX b = .error msg →
          PublicKeyFromPEM E t
            = (.error (.parsePublicKeyError msg), [.pemDecode, .parsePKIX]))
        ∧ (∀ k, E.parsePKIX b = .ok k →
          PublicKeyFromPEM E t = (.ok k, [.pemDecode, .parsePKIX]))) := by
  refine ⟨?_, ?_, ?_, ?_⟩
  · unfold PublicKeyFromPEM
    rcases E.pemDecode t with _ | ⟨b, rest⟩
    · rfl
    · by_cases hr : rest.length > 0
      · simp [hr]
      · rcases hpk : E.parsePKIX b with msg | k <;> simp [hr, hpk, List.count_cons]
  · intro h
    simp [PublicKeyFromPEM, h]
  · intro b rest h hrest
    have hlen : rest.length > 0 := List.length_pos.mpr hrest
    simp [PublicKeyFromPEM, h, hlen]
  · intro b h
    constructor
    · intro msg hmsg
      simp [PublicKeyFromPEM, h, hmsg]
    · intro k hk
      simp [PublicKeyFromPEM, h, hk]

/-- Witness for `publicKeyFromPEM_spec`: a decode with an empty remainder
followed by a successful PKIX parse returns the key, with one decode event. -/
theorem publicKeyFromPEM_spec_witness :
    PublicKeyFromPEM ⟨fun _ => some ([7], []), fun _ => .ok (.rsa sampleRSAKey)⟩ [1]
      = (.ok (.rsa sampleRSAKey), [.pemDecode, .parsePKIX])
    ∧ (PublicKeyFromPEM ⟨fun _ => some ([7], []), fun _ => .ok (.rsa sampleRSAKey)⟩
        [1]).2.count .pemDecode = 1 :=
  ⟨((publicKeyFromPEM_spec ⟨fun _ => some ([7], []), fun _ => .ok (.rsa sampleRSAKey)⟩
      [1]).2.2.2 [7] rfl).2 (.rsa sampleRSAKey) rfl,
   (publicKeyFromPEM_spec ⟨fun _ => some ([7], []), fun _ => .ok (.rsa sampleRSAKey)⟩
      [1]).1⟩

/-- C6: the canonical hash is key-order independent — for any two maps
holding the same key/value pairs (entry lists that are permutations of
each other, keys duplicate-free) the canonical hashes agree, in particular
on the concrete pair of objects a:1,b:2 and b:2,a:1; hence `VerifyObject`
returns the same result on the two maps for any fixed key and signature;
and the objects a:1,b:2 and a:1,b:3, which differ in one value, hash
differently for every injective digest primitive (injectivity being the
idealisation of the collision resistance the spec inherits from the
SHA-256-class primitive). -/
theorem canonical_hash_order_independence
    (h : Json → Bytes) {D : Type} (g : Json → D) (hg : Function.Injective g)
    (P : CryptoPrims) (pub : PublicKey) (sig : DigitallySigned) :
    (∀ l1 l2 : List (String × Json), l1.Perm l2 → (l1.map Prod.fst).Nodup →
        specCanonicalHash h (.obj l1) = specCanonicalHash h (.obj l2))
    ∧ specCanonicalHash h (.obj [("a", .num 1), ("b", .num 2)])
        = specCanonicalHash h (.obj [("b", .num 2), ("a", .num 1)])
    ∧ specCanonicalHash g (.obj [("a", .num 1), ("b", .num 2)])
        ≠ specCanonicalHash g (.obj [("a", .num 1), ("b", .num 3)])
    ∧ (∀ l1 l2 : List (String × Json), l1.Perm l2 → (l1.map Prod.fst).Nodup →
        VerifyObject P (specObjectPrims h) pub (.obj l1) sig
          = VerifyObject P (specObjectPrims h) pub (.obj l2) sig) := by
  have hperm_ex : ([("a", Json.num 1), ("b", Json.num 2)] :
      List (String × Json)).Perm [("b", Json.num 2), ("a", Json.num 1)] :=
    List.Perm.swap ("b", Json.num 2) ("a", Json.num 1) []
  have hnd_ex : (([("a", Json.num 1), ("b", Json.num 2)] :
      List (String × Json)).map Prod.fst).Nodup := by
    simp
  have hne : canonicalize (.obj [("a", .num 1), ("b", .num 2)])
      ≠ canonicalize (.obj [("a", .num 1), ("b", .num 3)]) := by
    simp only [canonicalize, List.attach, List.attachWith, List.pmap, List.map,
      List.insertionSort, List.orderedInsert]
    rw [if_pos (by simp [entryLE, String.le_iff_toList_le]; decide),
      if_pos (by simp [entryLE, String.le_iff_toList_le]; decide)]
    simp
  refine ⟨?_, ?_, ?_, ?_⟩
  · intro l1 l2 hp hnd
    unfold specCanonicalHash
    rw [canonicalize_obj_perm hp hnd]
  · unfold specCanonicalHash
    rw [canonicalize_obj_perm hperm_ex hnd_ex]
  · intro hEq
    exact hne (hg hEq)
  · intro l1 l2 hp hnd
    have hc := canonicalize_obj_perm hp hnd
    simp [VerifyObject, specObjectPrims, specCanonicalHash, hc]

/-- Witness for `canonical_hash_order_independence`: with a constant
digest primitive the permuted objects hash identically, and with the
identity (an injective digest) the value-differing objects hash
differently. -/
theorem canonical_hash_order_independence_witness :
    specCanonicalHash (fun _ => ([] : Bytes)) (.obj [("a", .num 1), ("b", .num 2)])
      = specCanonicalHash (fun _ => ([] : Bytes)) (.obj [("b", .num 2), ("a", .num 1)])
    ∧ specCanonicalHash (fun v : Json => v) (.obj [("a", .num 1), ("b", .num 2)])
      ≠ specCanonicalHash (fun v : Json => v) (.obj [("a", .num 1), ("b", .num 3)]) :=
  ⟨(canonical_hash_order_independence (fun _ => []) (fun v : Json => v)
      (fun _ _ he => he) primsAccept (.ecdsa sampleECDSAKey) sigSHA256ECDSA).2.1,
   (canonical_hash_order_independence (fun _ => []) (fun v : Json => v)
      (fun _ _ he => he) primsAccept (.ecdsa sampleECDSAKey) sigSHA256ECDSA).2.2.1⟩

end TrillianCrypto
